import Mathlib

/-!
Verification of the time-window helpers in `NEMO/utilities.py`.

Naive datetimes are embedded as `Int` microseconds since 1970-01-01T00:00:00
(the wall-clock reading, no timezone attached), matching Python `datetime`
semantics: field construction and extraction go through proleptic-Gregorian
day arithmetic, and all Python `//`/`%` operations appear as Lean `Int`
`/`/`%` (Euclidean division, which agrees with Python floor division for the
positive divisors used here).  Timezones are fixed UTC offsets; an aware
datetime pairs a wall-clock reading with its timezone.  Fallible Python code
(raised exceptions) is embedded with `Option`/`Except`.
-/

namespace NEMO

def usPerSec : Int := 1000000

def usPerDay : Int := 86400000000

/-- Leap-year test of the proleptic Gregorian calendar (Python `calendar.isleap`). -/
def isLeap (y : Int) : Bool := decide (y % 4 = 0 ∧ (¬ y % 100 = 0 ∨ y % 400 = 0))

/-- Number of days in month `m` of year `y` (Python `calendar.monthrange(y, m)[1]`). -/
def monthLength (y m : Int) : Int :=
  if m = 2 then (if isLeap y then 29 else 28)
  else if m = 4 ∨ m = 6 ∨ m = 9 ∨ m = 11 then 30
  else 31

/-- Day of the shifted (March-first) year for shifted month `mp` (0 = March … 11 = February)
and day-of-month `d`. -/
def doyOfMp (mp d : Int) : Int := (153 * mp + 2) / 5 + d - 1

/-- Day of a 400-year era from the year-of-era `yoe` and day-of-year `doy`. -/
def doeOfYoeDoy (yoe doy : Int) : Int := yoe * 365 + yoe / 4 - yoe / 100 + doy

/-- Days between a Gregorian calendar date and 1970-01-01 (Python `date.toordinal` shifted
to the UNIX epoch). -/
def daysFromCivil (y m d : Int) : Int :=
  let yy := if m ≤ 2 then y - 1 else y
  let era := yy / 400
  era * 146097 + doeOfYoeDoy (yy - era * 400) (doyOfMp (if m ≤ 2 then m + 9 else m - 3) d) - 719468

/-- Recover (year-of-era, day-of-year) from a day-of-era. -/
def yearDayOfEra (doe : Int) : Int × Int :=
  let yoe := (doe - doe / 1460 + doe / 36524 - doe / 146096) / 365
  (yoe, doe - (365 * yoe + yoe / 4 - yoe / 100))

/-- Recover (shifted month, day-of-month) from a day of the shifted year. -/
def monthDayOfDoy (doy : Int) : Int × Int :=
  let mp := (5 * doy + 2) / 153
  (mp, doy - (153 * mp + 2) / 5 + 1)

/-- Gregorian calendar date of the day `z0` days after 1970-01-01
(Python `date.fromordinal` shifted to the UNIX epoch). -/
def civilFromDays (z0 : Int) : Int × Int × Int :=
  let z := z0 + 719468
  let era := z / 146097
  let doe := z - era * 146097
  let p := yearDayOfEra doe
  let q := monthDayOfDoy p.2
  let y := p.1 + era * 400
  let m := if q.1 < 10 then q.1 + 3 else q.1 - 9
  (if m ≤ 2 then y + 1 else y, m, q.2)

/-- The naive datetime with the given wall-clock fields (Python
`datetime(y, m, d, h, mi, s, us)`), as microseconds since the epoch. -/
def mkNaive (y m d h mi s us : Int) : Int :=
  daysFromCivil y m d * usPerDay + ((h * 60 + mi) * 60 + s) * usPerSec + us

/-- Calendar date (year, month, day) of a naive datetime. -/
def dateOf (t : Int) : Int × Int × Int := civilFromDays (t / usPerDay)

/-- Microseconds elapsed since the most recent midnight of a naive datetime. -/
def timeOfDayUS (t : Int) : Int := t % usPerDay

/-- A timezone, modelled as a fixed offset from UTC (the `input_timezone` /
`timezone.get_current_timezone()` values consumed by the source). -/
structure Tz where
  offsetMinutes : Int
deriving DecidableEq, Repr

/-- An aware datetime: a wall-clock reading together with its timezone. -/
structure AwareDT where
  naive : Int
  tz : Tz
deriving DecidableEq, Repr

/-- `localize` (source lines 163-168, scalar case): attach a timezone to a naive
datetime, producing an aware datetime with the same wall-clock fields. -/
def localize (t : Int) (tz : Tz) : AwareDT := ⟨t, tz⟩

/-- The UTC instant an aware datetime denotes (used by Python's aware comparison). -/
def AwareDT.utcMicro (a : AwareDT) : Int := a.naive - a.tz.offsetMinutes * 60 * usPerSec

/-- Python `aware.astimezone(tz)`: same UTC instant, wall clock rewritten for `tz`. -/
def astimezone (a : AwareDT) (tz : Tz) : AwareDT :=
  ⟨a.utcMicro + tz.offsetMinutes * 60 * usPerSec, tz⟩

/-- Smallest naive datetime Python accepts (year 1). -/
def minNaiveMicro : Int := daysFromCivil 1 1 1 * usPerDay

/-- Largest naive datetime Python accepts (year 9999). -/
def maxNaiveMicro : Int := daysFromCivil 9999 12 31 * usPerDay + (usPerDay - 1)

/-- Python `datetime.utcfromtimestamp` on a timestamp given in microseconds:
the naive UTC datetime at that offset from the epoch, failing (OverflowError /
ValueError) outside the representable year range. -/
def utcfromtimestampMicro (t : Int) : Option Int :=
  if minNaiveMicro ≤ t ∧ t ≤ maxNaiveMicro then some t else none

/-- The distinct failure kinds raised by the range-extraction functions
(each `raise Exception(...)` site, classified by its message). -/
inductive ExtractError where
  | MissingParameter (key : String)
  | InvalidParameter (key : String)
  | InvertedRange
deriving DecidableEq, Repr

/-- A raw request-parameter value destined for `float()` conversion: either a
text/number that converts to a finite UNIX timestamp (kept in microseconds),
or one on which `float()`/`utcfromtimestamp` raises. -/
inductive RawTime where
  | value (micro : Int)
  | malformed
deriving DecidableEq, Repr

/-- Python `float(x)` on a raw parameter, scaled to integer microseconds. -/
def parseTimestamp : RawTime → Option Int
  | .value t => some t
  | .malformed => none

/-- `extract_times` (source lines 84-116): pull `start`/`end` UNIX timestamps
out of a request-parameter map, convert each with
`float` → `utcfromtimestamp` → `localize`, and reject inverted ranges.
`input_timezone` overrides the current timezone when supplied. -/
def extract_times (parameters : String → Option RawTime) (input_timezone : Option Tz)
    (current_tz : Tz) : Except ExtractError (AwareDT × AwareDT) :=
  match parameters "start" with
  | none => .error (.MissingParameter "start")
  | some startRaw =>
    match parameters "end" with
    | none => .error (.MissingParameter "end")
    | some endRaw =>
      match (parseTimestamp startRaw).bind utcfromtimestampMicro with
      | none => .error (.InvalidParameter "start")
      | some startNaive =>
        match (parseTimestamp endRaw).bind utcfromtimestampMicro with
        | none => .error (.InvalidParameter "end")
        | some endNaive =>
          let tz := input_timezone.getD current_tz
          let startA := localize startNaive tz
          let endA := localize endNaive tz
          if endA.utcMicro < startA.utcMicro then .error .InvertedRange
          else .ok (startA, endA)

/-- Split a character list at every occurrence of `sep` (Python `str.split(sep)`,
`String.splitOn` semantics; the result is always nonempty). -/
def splitOnChar (sep : Char) : List Char → List (List Char)
  | [] => [[]]
  | c :: cs =>
    let r := splitOnChar sep cs
    if c = sep then [] :: r
    else (c :: r.headD []) :: r.tail

/-- Digit run to number (used to model `strptime` field matching). -/
def digitsToNat (cs : List Char) : Option Nat :=
  if cs.length ≠ 0 ∧ cs.all Char.isDigit then
    some (cs.foldl (fun a c => a * 10 + (c.toNat - 48)) 0)
  else none

/-- Python `datetime.strptime(date, "%Y-%m-%d")`: exactly four year digits,
one or two month and day digits, literal dashes, no surrounding garbage,
and the fields must form a real calendar date with year ≥ 1. -/
def parseYMD (s : String) : Option (Int × Int × Int) :=
  match splitOnChar '-' s.data with
  | [ys, ms, ds] =>
    match digitsToNat ys, digitsToNat ms, digitsToNat ds with
    | some y, some m, some d =>
      if ys.length = 4 ∧ ms.length ≤ 2 ∧ ds.length ≤ 2 ∧ 1 ≤ y ∧
          1 ≤ m ∧ m ≤ 12 ∧ 1 ≤ d ∧ (d : Int) ≤ monthLength (y : Int) (m : Int) then
        some ((y : Int), (m : Int), (d : Int))
      else none
    | _, _, _ => none
  | _ => none

/-- `extract_date` (source lines 119-120): parse a strict `YYYY-MM-DD` string and
localize the resulting midnight to the current timezone. -/
def extract_date (date : String) (current_tz : Tz) : Option AwareDT :=
  (parseYMD date).map fun ymd => localize (mkNaive ymd.1 ymd.2.1 ymd.2.2 0 0 0 0) current_tz

/-- `extract_dates` (source lines 123-150): same validation chain as
`extract_times`, with each endpoint parsed by `extract_date`. -/
def extract_dates (parameters : String → Option String) (current_tz : Tz) :
    Except ExtractError (AwareDT × AwareDT) :=
  match parameters "start" with
  | none => .error (.MissingParameter "start")
  | some startRaw =>
    match parameters "end" with
    | none => .error (.MissingParameter "end")
    | some endRaw =>
      match extract_date startRaw current_tz with
      | none => .error (.InvalidParameter "start")
      | some startA =>
        match extract_date endRaw current_tz with
        | none => .error (.InvalidParameter "end")
        | some endA =>
          if endA.utcMicro < startA.utcMicro then .error .InvertedRange
          else .ok (startA, endA)

/-- `parse_start_and_end_date` (source lines 31-35): parse both free-text dates
with the permissive external parser (injected as `parse`, returning a naive
datetime), make both aware in the current timezone, and shift the end by
`timedelta(days=1, seconds=-1)`.  No ordering check. -/
def parse_start_and_end_date (parse : String → Option Int) (current_tz : Tz)
    (start : String) (endStr : String) : Option (AwareDT × AwareDT) :=
  match parse start, parse endStr with
  | some s, some e => some (localize s current_tz, localize (e + (usPerDay - usPerSec)) current_tz)
  | _, _ => none

/-- Whitespace as recognized by Python `str.strip()` (ASCII part). -/
def isPySpace (c : Char) : Bool :=
  c = ' ' ∨ c = '\t' ∨ c = '\n' ∨ c = '\r' ∨ c = '\x0b' ∨ c = '\x0c'

/-- Python `str.strip()`: drop whitespace from both ends. -/
def pyStripChars (cs : List Char) : List Char :=
  ((cs.dropWhile isPySpace).reverse.dropWhile isPySpace).reverse

/-- Python `str.strip()` as a `String` operation. -/
def pyStrip (s : String) : String := String.mk (pyStripChars s.data)

/-- Python `int(str)` on an ASCII string: optional surrounding whitespace,
optional sign, then a nonempty run of decimal digits. -/
def str_to_int (s : String) : Option Int :=
  match pyStripChars s.data with
  | '+' :: rest =>
    if rest.length ≠ 0 ∧ rest.all Char.isDigit then
      some ((rest.foldl (fun a c => a * 10 + (c.toNat - 48)) 0 : Nat) : Int)
    else none
  | '-' :: rest =>
    if rest.length ≠ 0 ∧ rest.all Char.isDigit then
      some (-((rest.foldl (fun a c => a * 10 + (c.toNat - 48)) 0 : Nat) : Int))
    else none
  | cs =>
    if cs.length ≠ 0 ∧ cs.all Char.isDigit then
      some ((cs.foldl (fun a c => a * 10 + (c.toNat - 48)) 0 : Nat) : Int)
    else none

/-- `quiet_int` (source lines 38-48): best-effort `int()` conversion, returning
`default_upon_failure` when the conversion raises. -/
def quiet_int (value_to_convert : String) (default_upon_failure : Int) : Int :=
  match str_to_int value_to_convert with
  | some result => result
  | none => default_upon_failure

/-- The failures `parse_parameter_string` can re-raise when `raise_on_error`
is set: a missing key, or a value longer than `maximum_length`. -/
inductive ParamError where
  | missing (key : String)
  | tooLong (key : String) (length maxLength : Nat)
deriving DecidableEq, Repr

/-- `parse_parameter_string` (source lines 51-63): look the key up, strip
whitespace, and enforce the length limit only when `raise_on_error` is set;
any failure with `raise_on_error` unset yields `default_return`. -/
def parse_parameter_string (parameter_dictionary : String → Option String)
    (parameter_key : String) (maximum_length : Nat) (raise_on_error : Bool)
    (default_return : String) : Except ParamError String :=
  match parameter_dictionary parameter_key with
  | none => if raise_on_error then .error (.missing parameter_key) else .ok default_return
  | some v =>
    let parameter := pyStrip v
    if raise_on_error ∧ maximum_length < parameter.data.length then
      .error (.tooLong parameter_key parameter.data.length maximum_length)
    else .ok parameter

/-- The month-timeframe computation shared by both branches of
`get_month_timeframe` (source lines 79-81): first of the month at midnight
through the last day of the month at 23:59:59, both localized. -/
def monthTimeframeOf (start : Int) (current_tz : Tz) : AwareDT × AwareDT :=
  let ymd := dateOf start
  (localize (mkNaive ymd.1 ymd.2.1 1 0 0 0 0) current_tz,
   localize (mkNaive ymd.1 ymd.2.1 (monthLength ymd.1 ymd.2.1) 23 59 59 0) current_tz)

/-- `get_month_timeframe` (source lines 74-81): parse the optional date with the
permissive external parser (injected as `parse`), defaulting to the current
instant, and return that month's timeframe. -/
def get_month_timeframe (parse : String → Option Int) (now : Int) (current_tz : Tz)
    (date : Option String) : Option (AwareDT × AwareDT) :=
  match date with
  | some d => (parse d).map fun start => monthTimeframeOf start current_tz
  | none => some (monthTimeframeOf now current_tz)

/-- Year after stepping one month forward. -/
def nextMonthY (y m : Int) : Int := if m = 12 then y + 1 else y

/-- Month after stepping one month forward. -/
def nextMonthM (_y m : Int) : Int := if m = 12 then 1 else m + 1

/-- Occurrence generation of `dateutil.rrule(MONTHLY, dtstart, count)`: walk
months forward from `(y, m)`, emitting the dtstart's day-of-month `d` and
time-of-day in every month that has day `d` (months without it are skipped),
until `count` occurrences exist.  `fuel` bounds the walk; callers pass enough
fuel that it never runs out for satisfiable requests. -/
def rruleMonthlyAux (d todUS : Int) : Nat → Int → Int → Nat → List Int
  | 0, _, _, _ => []
  | _ + 1, _, _, 0 => []
  | fuel + 1, y, m, count + 1 =>
    if d ≤ monthLength y m then
      (daysFromCivil y m d * usPerDay + todUS) ::
        rruleMonthlyAux d todUS fuel (nextMonthY y m) (nextMonthM y m) count
    else
      rruleMonthlyAux d todUS fuel (nextMonthY y m) (nextMonthM y m) (count + 1)

/-- `list(rrule(MONTHLY, dtstart=dtstart, count=count))`. -/
def rruleMonthly (dtstart : Int) (count : Nat) : List Int :=
  let ymd := dateOf dtstart
  rruleMonthlyAux ymd.2.2 (timeOfDayUS dtstart) (count * 12 + 12) ymd.1 ymd.2.1 count

/-- `month_list` (source lines 66-71): count the months from `since` through the
current month, enumerate them with a monthly rrule, localize each and reverse.
The current year/month (read from `timezone.now()` in the source) are injected. -/
def month_list (now_year now_month : Int) (since : Int) (current_tz : Tz) : List AwareDT :=
  let sinceYMD := dateOf since
  let month_count := (now_year - sinceYMD.1) * 12 + (now_month - sinceYMD.2.1) + 1
  (((rruleMonthly since month_count.toNat).map (fun t => localize t current_tz))).reverse

/-- Python list indexing on a list of strings, including the negative-index
wraparound (out-of-range reads, which raise in Python, yield `""`). -/
def pyListGet (l : List String) (i : Int) : String :=
  if 0 ≤ i then l.getD i.toNat "" else l.getD (l.length - (-i).toNat) ""

/-- The ordinal-suffix computation of `format_datetime` (source lines 156-159). -/
def daySuffix (day : Int) : String :=
  if (4 ≤ day ∧ day ≤ 20) ∨ (24 ≤ day ∧ day ≤ 30) then "th"
  else pyListGet ["st", "nd", "rd"] (day % 10 - 1)

/-- `strftime("%A")` weekday names, indexed with Monday = 0. -/
def weekdayNames : List String :=
  ["Monday", "Tuesday", "Wednesday", "Thursday", "Friday", "Saturday", "Sunday"]

/-- `strftime("%B")` month names. -/
def monthNames : List String :=
  ["January", "February", "March", "April", "May", "June", "July", "August",
   "September", "October", "November", "December"]

/-- Decimal digits of a positive number, most significant first (`fuel` only
bounds the recursion and is always passed large enough). -/
def natToCharsAux : Nat → Nat → List Char
  | 0, _ => []
  | _ + 1, 0 => []
  | fuel + 1, n => natToCharsAux fuel (n / 10) ++ [Char.ofNat (48 + n % 10)]

/-- Decimal rendering of a natural number. -/
def natToChars (n : Nat) : List Char :=
  if n = 0 then ['0'] else natToCharsAux (n + 1) n

/-- Decimal rendering of an integer (Python `str(int)`). -/
def intToChars (n : Int) : List Char :=
  if n < 0 then '-' :: natToChars (-n).toNat else natToChars n.toNat

/-- Two-digit zero padding (strftime numeric fields). -/
def pad2 (n : Int) : List Char := if n < 10 then '0' :: intToChars n else intToChars n

/-- `format_datetime` (source lines 153-160): convert to the current timezone and
render weekday, month, ordinal day, year and 12-hour time with the leading
zero stripped. -/
def format_datetime (universal_time : AwareDT) (current_tz : Tz) : String :=
  let local_time := astimezone universal_time current_tz
  let days := local_time.naive / usPerDay
  let ymd := civilFromDays days
  let tod := timeOfDayUS local_time.naive
  let hour := tod / (3600 * usPerSec)
  let minute := tod / (60 * usPerSec) % 60
  let day := ymd.2.2
  let suffix := daySuffix day
  let hour12 := if hour % 12 = 0 then 12 else hour % 12
  let ampm := if hour < 12 then ['A', 'M'] else ['P', 'M']
  let timePart := (pad2 hour12 ++ [':'] ++ pad2 minute ++ [' '] ++ ampm).dropWhile
    (fun c => c = '0')
  String.mk ((weekdayNames.getD ((days + 3) % 7).toNat "").data ++ [',', ' '] ++
    (monthNames.getD (ymd.2.1 - 1).toNat "").data ++ [' '] ++ intToChars day ++
    suffix.data ++ [',', ' '] ++ intToChars ymd.1 ++ [' ', '@', ' '] ++ timePart)

/-- A Python datetime that is either naive or aware (the two possible results of
`end_of_the_day`, depending on `in_local_timezone`). -/
inductive PyDT where
  | naive (t : Int)
  | aware (a : AwareDT)
deriving DecidableEq, Repr

/-- The `t.replace(hour=23, minute=59, second=59, microsecond=999999, tzinfo=None)`
step of `end_of_the_day`: keep the calendar day of the wall-clock reading and
move the time to 23:59:59.999999. -/
def replaceTimeEndOfDay (t : Int) : Int := t - t % usPerDay + (usPerDay - 1)

/-- `end_of_the_day` (source lines 181-184): the end of the wall-clock day of `t`,
re-localized to the current timezone unless `in_local_timezone` is unset. -/
def end_of_the_day (t : AwareDT) (in_local_timezone : Bool) (current_tz : Tz) : PyDT :=
  let midnight := replaceTimeEndOfDay t.naive
  if in_local_timezone then .aware (localize midnight current_tz) else .naive midnight


/-! ### Correctness of the calendar arithmetic -/

theorem monthLength_pos (y m : Int) : 1 ≤ monthLength y m := by
  unfold monthLength; split_ifs <;> norm_num

theorem monthLength_le (y m : Int) : monthLength y m ≤ 31 := by
  unfold monthLength; split_ifs <;> norm_num

set_option maxHeartbeats 4000000 in
theorem yoe_of_doe (yoe doy : Int) (h1 : 0 ≤ yoe) (h2 : yoe ≤ 399) (h3 : 0 ≤ doy)
    (h4 : doy ≤ 364 ∨ (doy = 365 ∧ (yoe + 1) % 4 = 0 ∧ ((yoe + 1) % 100 ≠ 0 ∨ yoe + 1 = 400))) :
    (yoe * 365 + yoe / 4 - yoe / 100 + doy -
        (yoe * 365 + yoe / 4 - yoe / 100 + doy) / 1460 +
        (yoe * 365 + yoe / 4 - yoe / 100 + doy) / 36524 -
        (yoe * 365 + yoe / 4 - yoe / 100 + doy) / 146096) / 365 = yoe := by
  interval_cases yoe <;> omega

theorem yearDayOfEra_doeOfYoeDoy (yoe doy : Int) (h1 : 0 ≤ yoe) (h2 : yoe ≤ 399) (h3 : 0 ≤ doy)
    (h4 : doy ≤ 364 ∨ (doy = 365 ∧ (yoe + 1) % 4 = 0 ∧ ((yoe + 1) % 100 ≠ 0 ∨ yoe + 1 = 400))) :
    yearDayOfEra (doeOfYoeDoy yoe doy) = (yoe, doy) := by
  have heq := yoe_of_doe yoe doy h1 h2 h3 h4
  simp only [yearDayOfEra, doeOfYoeDoy, Prod.mk.injEq]
  rw [heq]
  exact ⟨rfl, by omega⟩

theorem monthDayOfDoy_doyOfMp (mp d : Int) (h1 : 0 ≤ mp) (h2 : mp ≤ 11) (h3 : 1 ≤ d)
    (h4 : doyOfMp mp d < doyOfMp (mp + 1) 1) :
    monthDayOfDoy (doyOfMp mp d) = (mp, d) := by
  simp only [monthDayOfDoy, doyOfMp, Prod.mk.injEq] at *
  interval_cases mp <;> omega

theorem civilFromDays_decomp (era yoe mp d : Int) (hy1 : 0 ≤ yoe) (hy2 : yoe ≤ 399)
    (hm1 : 0 ≤ mp) (hm2 : mp ≤ 11) (hd1 : 1 ≤ d)
    (hlast : doyOfMp mp d < doyOfMp (mp + 1) 1)
    (hleap : doyOfMp mp d ≤ 364 ∨
      (doyOfMp mp d = 365 ∧ (yoe + 1) % 4 = 0 ∧ ((yoe + 1) % 100 ≠ 0 ∨ yoe + 1 = 400))) :
    civilFromDays (era * 146097 + doeOfYoeDoy yoe (doyOfMp mp d) - 719468) =
      (if (if mp < 10 then mp + 3 else mp - 9) ≤ 2 then yoe + era * 400 + 1 else yoe + era * 400,
       if mp < 10 then mp + 3 else mp - 9, d) := by
  have hdoy0 : 0 ≤ doyOfMp mp d := by simp only [doyOfMp] at *; omega
  have hdoy365 : doyOfMp mp d ≤ 365 := by omega
  have hdoeB1 : 0 ≤ doeOfYoeDoy yoe (doyOfMp mp d) := by
    simp only [doeOfYoeDoy] at *; omega
  have hdoeB2 : doeOfYoeDoy yoe (doyOfMp mp d) ≤ 146096 := by
    simp only [doeOfYoeDoy] at *; omega
  have key1 := yearDayOfEra_doeOfYoeDoy yoe (doyOfMp mp d) hy1 hy2 hdoy0 hleap
  have key2 := monthDayOfDoy_doyOfMp mp d hm1 hm2 hd1 hlast
  simp only [civilFromDays]
  have hz : era * 146097 + doeOfYoeDoy yoe (doyOfMp mp d) - 719468 + 719468 =
      era * 146097 + doeOfYoeDoy yoe (doyOfMp mp d) := by ring
  rw [hz]
  have hEraDiv : (era * 146097 + doeOfYoeDoy yoe (doyOfMp mp d)) / 146097 = era := by omega
  rw [hEraDiv]
  have hDoe : era * 146097 + doeOfYoeDoy yoe (doyOfMp mp d) - era * 146097 =
      doeOfYoeDoy yoe (doyOfMp mp d) := by ring
  rw [hDoe, key1]
  rw [key2]

set_option maxHeartbeats 2000000 in
theorem civil_roundtrip (y m d : Int) (hm1 : 1 ≤ m) (hm2 : m ≤ 12)
    (hd1 : 1 ≤ d) (hd2 : d ≤ monthLength y m) :
    civilFromDays (daysFromCivil y m d) = (y, m, d) := by
  have hd31 : d ≤ 31 := le_trans hd2 (monthLength_le y m)
  have hml := hd2
  simp only [monthLength, isLeap, decide_eq_true_eq] at hml
  interval_cases m
  · -- month 1
    norm_num at hml
    have hG := civilFromDays_decomp ((y - 1) / 400) ((y - 1) - (y - 1) / 400 * 400) 10 d
      (by omega) (by omega) (by norm_num) (by norm_num) hd1
      (by simp only [doyOfMp]; omega)
      (by simp only [doyOfMp]; left; omega)
    have harg : daysFromCivil y 1 d =
        (y - 1) / 400 * 146097 + doeOfYoeDoy ((y - 1) - (y - 1) / 400 * 400) (doyOfMp 10 d) - 719468 := by
      simp only [daysFromCivil]; norm_num
    rw [harg, hG]
    simp only [Prod.mk.injEq]
    norm_num
    try omega
  · -- month 2
    norm_num at hml
    have hG := civilFromDays_decomp ((y - 1) / 400) ((y - 1) - (y - 1) / 400 * 400) 11 d
      (by omega) (by omega) (by norm_num) (by norm_num) hd1
      (by simp only [doyOfMp]; split_ifs at hml <;> omega)
      (by simp only [doyOfMp]; split_ifs at hml <;> omega)
    have harg : daysFromCivil y 2 d =
        (y - 1) / 400 * 146097 + doeOfYoeDoy ((y - 1) - (y - 1) / 400 * 400) (doyOfMp 11 d) - 719468 := by
      simp only [daysFromCivil]; norm_num
    rw [harg, hG]
    simp only [Prod.mk.injEq]
    norm_num
    try omega
  · -- month 3
    norm_num at hml
    have hG := civilFromDays_decomp (y / 400) (y - y / 400 * 400) 0 d
      (by omega) (by omega) (by norm_num) (by norm_num) hd1
      (by simp only [doyOfMp]; omega)
      (by simp only [doyOfMp]; left; omega)
    have harg : daysFromCivil y 3 d =
        y / 400 * 146097 + doeOfYoeDoy (y - y / 400 * 400) (doyOfMp 0 d) - 719468 := by
      simp only [daysFromCivil]; norm_num
    rw [harg, hG]
    simp only [Prod.mk.injEq]
    norm_num
    try omega
  · -- month 4
    norm_num at hml
    have hG := civilFromDays_decomp (y / 400) (y - y / 400 * 400) 1 d
      (by omega) (by omega) (by norm_num) (by norm_num) hd1
      (by simp only [doyOfMp]; omega)
      (by simp only [doyOfMp]; left; omega)
    have harg : daysFromCivil y 4 d =
        y / 400 * 146097 + doeOfYoeDoy (y - y / 400 * 400) (doyOfMp 1 d) - 719468 := by
      simp only [daysFromCivil]; norm_num
    rw [harg, hG]
    simp only [Prod.mk.injEq]
    norm_num
    try omega
  · -- month 5
    norm_num at hml
    have hG := civilFromDays_decomp (y / 400) (y - y / 400 * 400) 2 d
      (by omega) (by omega) (by norm_num) (by norm_num) hd1
      (by simp only [doyOfMp]; omega)
      (by simp only [doyOfMp]; left; omega)
    have harg : daysFromCivil y 5 d =
        y / 400 * 146097 + doeOfYoeDoy (y - y / 400 * 400) (doyOfMp 2 d) - 719468 := by
      simp only [daysFromCivil]; norm_num
    rw [harg, hG]
    simp only [Prod.mk.injEq]
    norm_num
    try omega
  · -- month 6
    norm_num at hml
    have hG := civilFromDays_decomp (y / 400) (y - y / 400 * 400) 3 d
      (by omega) (by omega) (by norm_num) (by norm_num) hd1
      (by simp only [doyOfMp]; omega)
      (by simp only [doyOfMp]; left; omega)
    have harg : daysFromCivil y 6 d =
        y / 400 * 146097 + doeOfYoeDoy (y - y / 400 * 400) (doyOfMp 3 d) - 719468 := by
      simp only [daysFromCivil]; norm_num
    rw [harg, hG]
    simp only [Prod.mk.injEq]
    norm_num
    try omega
  · -- month 7
    norm_num at hml
    have hG := civilFromDays_decomp (y / 400) (y - y / 400 * 400) 4 d
      (by omega) (by omega) (by norm_num) (by norm_num) hd1
      (by simp only [doyOfMp]; omega)
      (by simp only [doyOfMp]; left; omega)
    have harg : daysFromCivil y 7 d =
        y / 400 * 146097 + doeOfYoeDoy (y - y / 400 * 400) (doyOfMp 4 d) - 719468 := by
      simp only [daysFromCivil]; norm_num
    rw [harg, hG]
    simp only [Prod.mk.injEq]
    norm_num
    try omega
  · -- month 8
    norm_num at hml
    have hG := civilFromDays_decomp (y / 400) (y - y / 400 * 400) 5 d
      (by omega) (by omega) (by norm_num) (by norm_num) hd1
      (by simp only [doyOfMp]; omega)
      (by simp only [doyOfMp]; left; omega)
    have harg : daysFromCivil y 8 d =
        y / 400 * 146097 + doeOfYoeDoy (y - y / 400 * 400) (doyOfMp 5 d) - 719468 := by
      simp only [daysFromCivil]; norm_num
    rw [harg, hG]
    simp only [Prod.mk.injEq]
    norm_num
    try omega
  · -- month 9
    norm_num at hml
    have hG := civilFromDays_decomp (y / 400) (y - y / 400 * 400) 6 d
      (by omega) (by omega) (by norm_num) (by norm_num) hd1
      (by simp only [doyOfMp]; omega)
      (by simp only [doyOfMp]; left; omega)
    have harg : daysFromCivil y 9 d =
        y / 400 * 146097 + doeOfYoeDoy (y - y / 400 * 400) (doyOfMp 6 d) - 719468 := by
      simp only [daysFromCivil]; norm_num
    rw [harg, hG]
    simp only [Prod.mk.injEq]
    norm_num
    try omega
  · -- month 10
    norm_num at hml
    have hG := civilFromDays_decomp (y / 400) (y - y / 400 * 400) 7 d
      (by omega) (by omega) (by norm_num) (by norm_num) hd1
      (by simp only [doyOfMp]; omega)
      (by simp only [doyOfMp]; left; omega)
    have harg : daysFromCivil y 10 d =
        y / 400 * 146097 + doeOfYoeDoy (y - y / 400 * 400) (doyOfMp 7 d) - 719468 := by
      simp only [daysFromCivil]; norm_num
    rw [harg, hG]
    simp only [Prod.mk.injEq]
    norm_num
    try omega
  · -- month 11
    norm_num at hml
    have hG := civilFromDays_decomp (y / 400) (y - y / 400 * 400) 8 d
      (by omega) (by omega) (by norm_num) (by norm_num) hd1
      (by simp only [doyOfMp]; omega)
      (by simp only [doyOfMp]; left; omega)
    have harg : daysFromCivil y 11 d =
        y / 400 * 146097 + doeOfYoeDoy (y - y / 400 * 400) (doyOfMp 8 d) - 719468 := by
      simp only [daysFromCivil]; norm_num
    rw [harg, hG]
    simp only [Prod.mk.injEq]
    norm_num
    try omega
  · -- month 12
    norm_num at hml
    have hG := civilFromDays_decomp (y / 400) (y - y / 400 * 400) 9 d
      (by omega) (by omega) (by norm_num) (by norm_num) hd1
      (by simp only [doyOfMp]; omega)
      (by simp only [doyOfMp]; left; omega)
    have harg : daysFromCivil y 12 d =
        y / 400 * 146097 + doeOfYoeDoy (y - y / 400 * 400) (doyOfMp 9 d) - 719468 := by
      simp only [daysFromCivil]; norm_num
    rw [harg, hG]
    simp only [Prod.mk.injEq]
    norm_num
    try omega

theorem mkNaive_midnight (y m d : Int) :
    mkNaive y m d 0 0 0 0 = daysFromCivil y m d * usPerDay := by
  simp [mkNaive]

theorem dateOf_mkNaive_midnight (y m d : Int) (hm1 : 1 ≤ m) (hm2 : m ≤ 12)
    (hd1 : 1 ≤ d) (hd2 : d ≤ monthLength y m) :
    dateOf (mkNaive y m d 0 0 0 0) = (y, m, d) := by
  rw [dateOf, mkNaive_midnight, Int.mul_ediv_cancel _ (by rw [usPerDay]; norm_num)]
  exact civil_roundtrip y m d hm1 hm2 hd1 hd2

theorem timeOfDay_mkNaive_midnight (y m d : Int) :
    timeOfDayUS (mkNaive y m d 0 0 0 0) = 0 := by
  rw [timeOfDayUS, mkNaive_midnight, Int.mul_emod_left]

/-! ### Enumeration lemmas for the monthly rrule -/

/-- The first instant of the calendar month with month index `k`
(index = year * 12 + month - 1). -/
def firstOfMonthIdx (k : Int) : Int := daysFromCivil (k / 12) (k % 12 + 1) 1 * usPerDay

theorem rruleMonthlyAux_day1_length (todUS : Int) :
    ∀ (count fuel : Nat) (y m : Int), count ≤ fuel →
      (rruleMonthlyAux 1 todUS fuel y m count).length = count := by
  intro count
  induction count with
  | zero =>
    intro fuel y m _
    cases fuel <;> simp [rruleMonthlyAux]
  | succ n ih =>
    intro fuel y m hf
    cases fuel with
    | zero => omega
    | succ f =>
      rw [rruleMonthlyAux, if_pos (monthLength_pos y m)]
      simp only [List.length_cons]
      rw [ih f (nextMonthY y m) (nextMonthM y m) (by omega)]

theorem rruleMonthlyAux_day1_get (todUS : Int) :
    ∀ (count fuel : Nat) (y m : Int) (i : Nat), count ≤ fuel → 1 ≤ m → m ≤ 12 → i < count →
      (rruleMonthlyAux 1 todUS fuel y m count)[i]? =
        some (firstOfMonthIdx (y * 12 + m - 1 + i) + todUS) := by
  intro count
  induction count with
  | zero => omega
  | succ n ih =>
    intro fuel y m i hf hm1 hm2 hi
    cases fuel with
    | zero => omega
    | succ f =>
      rw [rruleMonthlyAux, if_pos (monthLength_pos y m)]
      cases i with
      | zero =>
        simp only [List.getElem?_cons_zero, Option.some.injEq, Int.Nat.cast_ofNat_Int, add_zero]
        have h1 : (y * 12 + m - 1) / 12 = y := by omega
        have h2 : (y * 12 + m - 1) % 12 + 1 = m := by omega
        rw [firstOfMonthIdx, h1, h2]
      | succ j =>
        simp only [List.getElem?_cons_succ]
        rw [ih f (nextMonthY y m) (nextMonthM y m) j (by omega)
          (by simp only [nextMonthM]; split_ifs <;> omega)
          (by simp only [nextMonthM]; split_ifs <;> omega) (by omega)]
        have harg : nextMonthY y m * 12 + nextMonthM y m - 1 + (j : Int) =
            y * 12 + m - 1 + ((j : Int) + 1) := by
          simp only [nextMonthY, nextMonthM]; split_ifs <;> omega
        rw [harg]
        norm_num

set_option maxHeartbeats 800000 in
theorem month_list_spec (now_year now_month y0 m0 : Int) (tz : Tz)
    (hm0 : 1 ≤ m0) (hm0' : m0 ≤ 12)
    (hle : y0 * 12 + m0 ≤ now_year * 12 + now_month) :
    ((month_list now_year now_month (mkNaive y0 m0 1 0 0 0 0) tz).length : Int) =
      (now_year - y0) * 12 + (now_month - m0) + 1 ∧
    (∀ i : Nat, i < (month_list now_year now_month (mkNaive y0 m0 1 0 0 0 0) tz).length →
      (month_list now_year now_month (mkNaive y0 m0 1 0 0 0 0) tz)[i]? =
        some (localize (firstOfMonthIdx (now_year * 12 + now_month - 1 - i)) tz)) := by
  have hdate := dateOf_mkNaive_midnight y0 m0 1 hm0 hm0' le_rfl (monthLength_pos y0 m0)
  have htod := timeOfDay_mkNaive_midnight y0 m0 1
  have hrrule : ∀ c : Nat, rruleMonthly (mkNaive y0 m0 1 0 0 0 0) c =
      rruleMonthlyAux 1 0 (c * 12 + 12) y0 m0 c := by
    intro c
    rw [rruleMonthly, hdate, htod]
  set N : Int := (now_year - y0) * 12 + (now_month - m0) + 1 with hN
  have hN1 : 1 ≤ N := by omega
  have hlist : month_list now_year now_month (mkNaive y0 m0 1 0 0 0 0) tz =
      ((rruleMonthlyAux 1 0 (N.toNat * 12 + 12) y0 m0 N.toNat).map
        (fun t => localize t tz)).reverse := by
    rw [month_list, hdate, hrrule]
  have hlen : (rruleMonthlyAux 1 0 (N.toNat * 12 + 12) y0 m0 N.toNat).length = N.toNat :=
    rruleMonthlyAux_day1_length 0 N.toNat (N.toNat * 12 + 12) y0 m0 (by omega)
  have hLlen : (month_list now_year now_month (mkNaive y0 m0 1 0 0 0 0) tz).length = N.toNat := by
    rw [hlist, List.length_reverse, List.length_map, hlen]
  constructor
  · rw [hLlen]; omega
  · intro i hi
    rw [hLlen] at hi
    rw [hlist]
    rw [List.getElem?_reverse (by simp only [List.length_map, hlen]; exact hi)]
    rw [List.length_map, hlen]
    rw [List.getElem?_map]
    rw [rruleMonthlyAux_day1_get 0 N.toNat (N.toNat * 12 + 12) y0 m0 (N.toNat - 1 - i)
      (by omega) hm0 hm0' (by omega)]
    have harg : y0 * 12 + m0 - 1 + ((N.toNat - 1 - i : Nat) : Int) =
        now_year * 12 + now_month - 1 - i := by
      have : ((N.toNat - 1 - i : Nat) : Int) = N - 1 - i := by omega
      rw [this]; omega
    rw [harg]
    simp

/-! ### Spec-side definitions -/

/-- Modelled from the spec: the English ordinal suffix for a day-of-month,
as the spec words it — `st`/`nd`/`rd` by final digit, with days 4-20 and
24-30 always taking `th`. -/
def ordinalSuffixSpec (day : Int) : String :=
  if (4 ≤ day ∧ day ≤ 20) ∨ (24 ≤ day ∧ day ≤ 30) then "th"
  else if day % 10 = 1 then "st"
  else if day % 10 = 2 then "nd"
  else if day % 10 = 3 then "rd"
  else "th"

/-- A UTC-like fixed timezone used for concrete instances. -/
def tzUTC : Tz := ⟨0⟩

/-! ### Claims -/

/-- C9: the quiet conversion helper never fails: it returns the converted
integer when conversion succeeds, and the caller-supplied default when the
conversion raises; `quiet("abc", default=5) = 5` and `quiet("42", default=5) = 42`. -/
theorem claim_C9_quiet_int :
    (∀ (v : String) (n dflt : Int), str_to_int v = some n → quiet_int v dflt = n) ∧
    (∀ (v : String) (dflt : Int), str_to_int v = none → quiet_int v dflt = dflt) ∧
    quiet_int "abc" 5 = 5 ∧ quiet_int "42" 5 = 42 := by
  refine ⟨?_, ?_, by decide, by decide⟩
  · intro v n dflt h
    simp [quiet_int, h]
  · intro v dflt h
    simp [quiet_int, h]

/-- C9 witness: the general clauses applied at the concrete inputs "42" and "abc". -/
theorem claim_C9_witness : quiet_int "42" 7 = 42 ∧ quiet_int "abc" 7 = 7 :=
  ⟨claim_C9_quiet_int.1 "42" 42 7 (by decide), claim_C9_quiet_int.2.1 "abc" 7 (by decide)⟩

/-- C10: with `raise_on_error` unset, `parse_parameter_string` never fails: a
present key returns the stripped value even past `maximum_length`, and a
missing key returns `default_return`. -/
theorem claim_C10_parse_parameter_string (d : String → Option String) (key : String)
    (maxLen : Nat) (dflt : String) :
    (∀ v, d key = some v → parse_parameter_string d key maxLen false dflt = .ok (pyStrip v)) ∧
    (d key = none → parse_parameter_string d key maxLen false dflt = .ok dflt) ∧
    (∀ v, d key = some v → maxLen < (pyStrip v).data.length →
      parse_parameter_string d key maxLen false dflt = .ok (pyStrip v)) ∧
    (∃ s, parse_parameter_string d key maxLen false dflt = .ok s) := by
  refine ⟨?_, ?_, ?_, ?_⟩
  · intro v h
    simp [parse_parameter_string, h]
  · intro h
    simp [parse_parameter_string, h]
  · intro v h _
    simp [parse_parameter_string, h]
  · cases h : d key with
    | none => exact ⟨dflt, by simp [parse_parameter_string, h]⟩
    | some v => exact ⟨pyStrip v, by simp [parse_parameter_string, h]⟩

/-- C10 witness: a three-character value under a limit of 1 is still returned
whole, and a missing key yields the default. -/
theorem claim_C10_witness :
    parse_parameter_string (fun k => if k = "q" then some " abc " else none) "q" 1 false "" =
      .ok "abc" ∧
    parse_parameter_string (fun k => if k = "q" then some " abc " else none) "r" 1 false "dflt" =
      .ok "dflt" := by
  constructor
  · have h := (claim_C10_parse_parameter_string
      (fun k => if k = "q" then some " abc " else none) "q" 1 "").2.2.1 " abc " (by decide)
      (by decide)
    simpa using h
  · exact (claim_C10_parse_parameter_string
      (fun k => if k = "q" then some " abc " else none) "r" 1 "dflt").2.1 (by decide)

/-- C8: day-boundary idempotence: an instant already at 23:59:59.999999 of its
day is returned unchanged by `end_of_the_day` (aware result in the same
timezone when `in_local_timezone` is set, and the unchanged naive reading
when it is not). -/
theorem claim_C8_end_of_the_day (t : AwareDT) (tz : Tz)
    (h : t.naive % usPerDay = usPerDay - 1) (htz : t.tz = tz) :
    end_of_the_day t true tz = PyDT.aware t ∧
    end_of_the_day t false tz = PyDT.naive t.naive ∧
    replaceTimeEndOfDay t.naive = t.naive := by
  have hus : usPerDay = 86400000000 := rfl
  have hrep : replaceTimeEndOfDay t.naive = t.naive := by
    rw [replaceTimeEndOfDay]; omega
  refine ⟨?_, ?_, hrep⟩
  · simp only [end_of_the_day, if_pos, hrep, localize]
    cases t with
    | mk naive tz' => simp_all
  · simp [end_of_the_day, hrep]

/-- C8 witness: the instant 2024-03-05 23:59:59.999999 UTC is a fixed point of
`end_of_the_day`. -/
theorem claim_C8_witness :
    end_of_the_day ⟨mkNaive 2024 3 5 23 59 59 999999, tzUTC⟩ true tzUTC =
      PyDT.aware ⟨mkNaive 2024 3 5 23 59 59 999999, tzUTC⟩ :=
  (claim_C8_end_of_the_day ⟨mkNaive 2024 3 5 23 59 59 999999, tzUTC⟩ tzUTC
    (by decide) rfl).1

/-- C6: `format_datetime` renders the day with the correct English ordinal
suffix — the source's suffix computation agrees with the spec's rule on all
days 1-31, with 1 → "1st", 11 → "11th", 21 → "21st", 24 → "24th",
31 → "31st" — and the full rendering matches on concrete instants. -/
theorem claim_C6_ordinal_suffix :
    (∀ day : Int, 1 ≤ day → day ≤ 31 → daySuffix day = ordinalSuffixSpec day) ∧
    daySuffix 1 = "st" ∧ daySuffix 11 = "th" ∧ daySuffix 21 = "st" ∧
    daySuffix 24 = "th" ∧ daySuffix 31 = "st" ∧
    format_datetime ⟨mkNaive 2024 3 1 17 30 0 0, tzUTC⟩ tzUTC =
      "Friday, March 1st, 2024 @ 5:30 PM" ∧
    format_datetime ⟨mkNaive 2024 3 21 9 5 0 0, tzUTC⟩ tzUTC =
      "Thursday, March 21st, 2024 @ 9:05 AM" := by
  refine ⟨?_, by decide, by decide, by decide, by decide, by decide, by decide, by decide⟩
  intro day h1 h2
  interval_cases day <;> decide

/-- C6 witness: the suffix agreement applied at day 5. -/
theorem claim_C6_witness : daySuffix 5 = ordinalSuffixSpec 5 :=
  claim_C6_ordinal_suffix.1 5 (by norm_num) (by norm_num)


/-- C1: numeric range extraction with both timestamps present and valid fails
with `InvertedRange` exactly when the validated end instant precedes the
validated start instant, and otherwise returns the localized `TimeRange`
with start ≤ end. -/
theorem claim_C1_extract_times_range (parameters : String → Option RawTime)
    (input_timezone : Option Tz) (current_tz : Tz) (s e : Int)
    (hs : parameters "start" = some (RawTime.value s))
    (he : parameters "end" = some (RawTime.value e))
    (hs1 : minNaiveMicro ≤ s) (hs2 : s ≤ maxNaiveMicro)
    (he1 : minNaiveMicro ≤ e) (he2 : e ≤ maxNaiveMicro) :
    (e < s → extract_times parameters input_timezone current_tz =
      .error .InvertedRange) ∧
    (s ≤ e → extract_times parameters input_timezone current_tz =
        .ok (localize s (input_timezone.getD current_tz),
          localize e (input_timezone.getD current_tz)) ∧
      (localize s (input_timezone.getD current_tz)).utcMicro ≤
        (localize e (input_timezone.getD current_tz)).utcMicro) := by
  have heval : extract_times parameters input_timezone current_tz =
      if (localize e (input_timezone.getD current_tz)).utcMicro <
          (localize s (input_timezone.getD current_tz)).utcMicro then
        .error .InvertedRange
      else
        .ok (localize s (input_timezone.getD current_tz),
          localize e (input_timezone.getD current_tz)) := by
    unfold extract_times
    rw [hs, he]
    dsimp only [parseTimestamp, Option.bind, utcfromtimestampMicro]
    rw [if_pos (And.intro hs1 hs2), if_pos (And.intro he1 he2)]
  constructor
  · intro hlt
    rw [heval, if_pos]
    simp only [localize, AwareDT.utcMicro, usPerSec]
    omega
  · intro hle
    rw [heval, if_neg]
    constructor
    · rfl
    · simp only [localize, AwareDT.utcMicro, usPerSec]
      omega
    · simp only [localize, AwareDT.utcMicro, usPerSec]
      omega

/-- C1 witness: a valid pair of timestamps one second apart. -/
theorem claim_C1_witness :
    extract_times
      (fun k => if k = "start" then some (.value 0)
        else if k = "end" then some (.value 1000000) else none) none tzUTC =
      .ok (localize 0 tzUTC, localize 1000000 tzUTC) :=
  ((claim_C1_extract_times_range
    (fun k => if k = "start" then some (.value 0)
      else if k = "end" then some (.value 1000000) else none) none tzUTC 0 1000000
    rfl rfl (by decide) (by decide) (by decide) (by decide)).2 (by norm_num)).1

/-- C2: both range extractors report a missing `start` key first, then a
missing `end` key, as `MissingParameter` naming that key; a present but
unconvertible value is reported as `InvalidParameter` naming that key; and
the three failure kinds are pairwise distinct. -/
theorem claim_C2_missing_and_invalid :
    (∀ (pt : String → Option RawTime) (itz : Option Tz) (ctz : Tz),
      (pt "start" = none → extract_times pt itz ctz = .error (.MissingParameter "start")) ∧
      (∀ v, pt "start" = some v → pt "end" = none →
        extract_times pt itz ctz = .error (.MissingParameter "end")) ∧
      (∀ v w, pt "start" = some v → pt "end" = some w →
        (parseTimestamp v).bind utcfromtimestampMicro = none →
        extract_times pt itz ctz = .error (.InvalidParameter "start")) ∧
      (∀ v w s, pt "start" = some v → pt "end" = some w →
        (parseTimestamp v).bind utcfromtimestampMicro = some s →
        (parseTimestamp w).bind utcfromtimestampMicro = none →
        extract_times pt itz ctz = .error (.InvalidParameter "end"))) ∧
    (∀ (pd : String → Option String) (ctz : Tz),
      (pd "start" = none → extract_dates pd ctz = .error (.MissingParameter "start")) ∧
      (∀ v, pd "start" = some v → pd "end" = none →
        extract_dates pd ctz = .error (.MissingParameter "end")) ∧
      (∀ v w, pd "start" = some v → pd "end" = some w → extract_date v ctz = none →
        extract_dates pd ctz = .error (.InvalidParameter "start")) ∧
      (∀ v w a, pd "start" = some v → pd "end" = some w → extract_date v ctz = some a →
        extract_date w ctz = none →
        extract_dates pd ctz = .error (.InvalidParameter "end"))) ∧
    (∀ k k' : String, ExtractError.MissingParameter k ≠ ExtractError.InvalidParameter k') ∧
    (∀ k : String, ExtractError.MissingParameter k ≠ ExtractError.InvertedRange) ∧
    (∀ k : String, ExtractError.InvalidParameter k ≠ ExtractError.InvertedRange) := by
  refine ⟨fun pt itz ctz => ⟨?_, ?_, ?_, ?_⟩, fun pd ctz => ⟨?_, ?_, ?_, ?_⟩,
    fun k k' => by simp, fun k => by simp, fun k => by simp⟩
  · intro h
    unfold extract_times
    rw [h]
  · intro v h1 h2
    unfold extract_times
    rw [h1, h2]
  · intro v w h1 h2 h3
    unfold extract_times
    rw [h1, h2]
    dsimp only
    rw [h3]
  · intro v w s h1 h2 h3 h4
    unfold extract_times
    rw [h1, h2]
    dsimp only
    rw [h3, h4]
  · intro h
    unfold extract_dates
    rw [h]
  · intro v h1 h2
    unfold extract_dates
    rw [h1, h2]
  · intro v w h1 h2 h3
    unfold extract_dates
    rw [h1, h2]
    dsimp only
    rw [h3]
  · intro v w a h1 h2 h3 h4
    unfold extract_dates
    rw [h1, h2]
    dsimp only
    rw [h3, h4]

/-- C2 witness: concrete parameter maps exercising a missing `start`, a missing
`end`, and an unparseable `start`. -/
theorem claim_C2_witness :
    extract_times (fun _ => none) none tzUTC = .error (.MissingParameter "start") ∧
    extract_times (fun k => if k = "start" then some (.value 0) else none) none tzUTC =
      .error (.MissingParameter "end") ∧
    extract_times (fun k => if k = "start" then some .malformed
        else if k = "end" then some (.value 0) else none) none tzUTC =
      .error (.InvalidParameter "start") ∧
    extract_dates (fun k => if k = "start" then some "nonsense"
        else if k = "end" then some "2024-01-01" else none) tzUTC =
      .error (.InvalidParameter "start") :=
  ⟨(claim_C2_missing_and_invalid.1 (fun _ => none) none tzUTC).1 rfl,
   (claim_C2_missing_and_invalid.1 (fun k => if k = "start" then some (.value 0) else none)
      none tzUTC).2.1 (.value 0) rfl rfl,
   (claim_C2_missing_and_invalid.1 (fun k => if k = "start" then some .malformed
      else if k = "end" then some (.value 0) else none) none tzUTC).2.2.1 .malformed
      (.value 0) rfl rfl rfl,
   (claim_C2_missing_and_invalid.2.1 (fun k => if k = "start" then some "nonsense"
      else if k = "end" then some "2024-01-01" else none) tzUTC).2.2.1 "nonsense"
      "2024-01-01" rfl rfl (by decide)⟩


/-- A concrete parser assignment used to exhibit the behaviour of
`parse_start_and_end_date` (maps each of two fixed date strings to the
midnight of that date). -/
def exampleFreeTextParse : String → Option Int := fun t =>
  if t = "2024-05-05" then some (mkNaive 2024 5 5 0 0 0 0)
  else if t = "2024-01-01" then some (mkNaive 2024 1 1 0 0 0 0)
  else none

/-- C3 counterexample: for the end string parsed at midnight 2024-01-01, the
returned end instant is NOT 23:59:59.999999 of that day (the code adds one
day minus one second, not one day minus one microsecond). -/
theorem claim_C3_counterexample :
    ¬ ((parse_start_and_end_date exampleFreeTextParse tzUTC "2024-01-01"
          "2024-01-01").map (fun r => r.2.naive) =
        some (mkNaive 2024 1 1 23 59 59 999999)) := by
  decide

/-- C3 amended: both parsed instants are made aware in the process timezone and
the end instant is shifted by `timedelta(days=1, seconds=-1)` — i.e. to
23:59:59 (not 23:59:59.999999) of the originally-parsed end day when the
parse lands on midnight — and no ordering check is performed, so a result
whose end precedes its start can be returned. -/
theorem claim_C3_amended (parse : String → Option Int) (current_tz : Tz)
    (ss es : String) (s e : Int) (hs : parse ss = some s) (he : parse es = some e) :
    parse_start_and_end_date parse current_tz ss es =
      some (localize s current_tz, localize (e + (usPerDay - usPerSec)) current_tz) ∧
    (∀ y m d : Int, e = mkNaive y m d 0 0 0 0 →
      e + (usPerDay - usPerSec) = mkNaive y m d 23 59 59 0) ∧
    (∀ a b : AwareDT,
      parse_start_and_end_date parse current_tz ss es = some (a, b) →
      e + (usPerDay - usPerSec) < s → b.utcMicro < a.utcMicro) := by
  have heval : parse_start_and_end_date parse current_tz ss es =
      some (localize s current_tz, localize (e + (usPerDay - usPerSec)) current_tz) := by
    unfold parse_start_and_end_date
    rw [hs, he]
  refine ⟨heval, ?_, ?_⟩
  · intro y m d hE
    subst hE
    simp only [mkNaive, usPerDay, usPerSec]
    ring
  · intro a b hab hlt
    rw [heval] at hab
    have h1 : a = localize s current_tz := by
      injection hab with h
      exact (congrArg Prod.fst h).symm
    have h2 : b = localize (e + (usPerDay - usPerSec)) current_tz := by
      injection hab with h
      exact (congrArg Prod.snd h).symm
    subst h1 h2
    simp only [localize, AwareDT.utcMicro]
    omega

/-- C3 amended witness: inverted free-text dates are returned unchecked, with
the end instant strictly before the start instant. -/
theorem claim_C3_witness :
    parse_start_and_end_date exampleFreeTextParse tzUTC "2024-05-05" "2024-01-01" =
      some (localize (mkNaive 2024 5 5 0 0 0 0) tzUTC,
        localize (mkNaive 2024 1 1 0 0 0 0 + (usPerDay - usPerSec)) tzUTC) ∧
    (localize (mkNaive 2024 1 1 0 0 0 0 + (usPerDay - usPerSec)) tzUTC).utcMicro <
      (localize (mkNaive 2024 5 5 0 0 0 0) tzUTC).utcMicro := by
  have h := claim_C3_amended exampleFreeTextParse tzUTC "2024-05-05" "2024-01-01"
    (mkNaive 2024 5 5 0 0 0 0) (mkNaive 2024 1 1 0 0 0 0) (by decide) (by decide)
  exact ⟨h.1, h.2.2 _ _ h.1 (by decide)⟩

/-- C5: `get_month_timeframe` on a parseable date string returns the range from
the first of that date's month at midnight through the last day of the month
at 23:59:59 local, using the exact day count of that month and year; in
particular February 2024 (leap) runs through the 29th and February 2023
through the 28th. -/
theorem claim_C5_get_month_timeframe (parse : String → Option Int) (now : Int)
    (current_tz : Tz) (ds : String) (s y m d : Int)
    (hp : parse ds = some s) (hdate : dateOf s = (y, m, d)) :
    get_month_timeframe parse now current_tz (some ds) =
      some (localize (mkNaive y m 1 0 0 0 0) current_tz,
        localize (mkNaive y m (monthLength y m) 23 59 59 0) current_tz) ∧
    monthLength 2024 2 = 29 ∧ monthLength 2023 2 = 28 ∧
    (∀ p2 : String → Option Int, p2 "2024-02-10" = some (mkNaive 2024 2 10 0 0 0 0) →
      get_month_timeframe p2 now current_tz (some "2024-02-10") =
        some (localize (mkNaive 2024 2 1 0 0 0 0) current_tz,
          localize (mkNaive 2024 2 29 23 59 59 0) current_tz)) := by
  refine ⟨?_, by decide, by decide, ?_⟩
  · unfold get_month_timeframe
    dsimp only
    rw [hp]
    dsimp only [Option.map]
    unfold monthTimeframeOf
    rw [hdate]
  · intro p2 hp2
    unfold get_month_timeframe
    dsimp only
    rw [hp2]
    dsimp only [Option.map]
    unfold monthTimeframeOf
    rw [show dateOf (mkNaive 2024 2 10 0 0 0 0) = (2024, 2, 10) from by decide]
    dsimp only
    rw [show monthLength 2024 2 = 29 from by decide]

/-- C5 witness: the general clause applied to a concrete parse of "2024-07-19". -/
theorem claim_C5_witness :
    get_month_timeframe (fun t => if t = "2024-07-19" then
        some (mkNaive 2024 7 19 0 0 0 0) else none) 0 tzUTC (some "2024-07-19") =
      some (localize (mkNaive 2024 7 1 0 0 0 0) tzUTC,
        localize (mkNaive 2024 7 (monthLength 2024 7) 23 59 59 0) tzUTC) :=
  (claim_C5_get_month_timeframe (fun t => if t = "2024-07-19" then
      some (mkNaive 2024 7 19 0 0 0 0) else none) 0 tzUTC "2024-07-19"
    (mkNaive 2024 7 19 0 0 0 0) 2024 7 19 (by decide) (by decide)).1

/-- C7: calendar-date range extraction parses each endpoint strictly as
`YYYY-MM-DD`, localizes it to midnight local time, and applies the same
ordering check and failure kinds as the numeric extraction. -/
theorem claim_C7_extract_dates (current_tz : Tz) :
    (∀ (ds : String) (y m d : Int), parseYMD ds = some (y, m, d) →
      extract_date ds current_tz = some (localize (mkNaive y m d 0 0 0 0) current_tz)) ∧
    parseYMD "2024-02-10" = some (2024, 2, 10) ∧
    parseYMD "2024/02/10" = none ∧ parseYMD "24-02-10" = none ∧
    parseYMD "2024-02-30" = none ∧ parseYMD "not-a-date" = none ∧
    (∀ (pd : String → Option String) (s1 e1 : String) (y1 m1 d1 y2 m2 d2 : Int),
      pd "start" = some s1 → pd "end" = some e1 →
      parseYMD s1 = some (y1, m1, d1) → parseYMD e1 = some (y2, m2, d2) →
      (mkNaive y2 m2 d2 0 0 0 0 < mkNaive y1 m1 d1 0 0 0 0 →
        extract_dates pd current_tz = .error .InvertedRange) ∧
      (mkNaive y1 m1 d1 0 0 0 0 ≤ mkNaive y2 m2 d2 0 0 0 0 →
        extract_dates pd current_tz =
          .ok (localize (mkNaive y1 m1 d1 0 0 0 0) current_tz,
            localize (mkNaive y2 m2 d2 0 0 0 0) current_tz))) := by
  have hdate : ∀ (ds : String) (y m d : Int), parseYMD ds = some (y, m, d) →
      extract_date ds current_tz = some (localize (mkNaive y m d 0 0 0 0) current_tz) := by
    intro ds y m d h
    unfold extract_date
    rw [h]
    rfl
  refine ⟨hdate, by decide, by decide, by decide, by decide, by decide, ?_⟩
  intro pd s1 e1 y1 m1 d1 y2 m2 d2 h1 h2 h3 h4
  have heval : extract_dates pd current_tz =
      if (localize (mkNaive y2 m2 d2 0 0 0 0) current_tz).utcMicro <
          (localize (mkNaive y1 m1 d1 0 0 0 0) current_tz).utcMicro then
        .error .InvertedRange
      else
        .ok (localize (mkNaive y1 m1 d1 0 0 0 0) current_tz,
          localize (mkNaive y2 m2 d2 0 0 0 0) current_tz) := by
    unfold extract_dates
    rw [h1, h2]
    dsimp only
    rw [hdate s1 y1 m1 d1 h3, hdate e1 y2 m2 d2 h4]
  constructor
  · intro hlt
    rw [heval, if_pos]
    simp only [localize, AwareDT.utcMicro, usPerSec]
    omega
  · intro hle
    rw [heval, if_neg]
    simp only [localize, AwareDT.utcMicro, usPerSec]
    omega

/-- C7 witness: a concrete in-order date range is returned as localized
midnights. -/
theorem claim_C7_witness :
    extract_dates (fun k => if k = "start" then some "2024-01-05"
        else if k = "end" then some "2024-01-07" else none) tzUTC =
      .ok (localize (mkNaive 2024 1 5 0 0 0 0) tzUTC,
        localize (mkNaive 2024 1 7 0 0 0 0) tzUTC) :=
  (((claim_C7_extract_dates tzUTC).2.2.2.2.2.2
    (fun k => if k = "start" then some "2024-01-05"
      else if k = "end" then some "2024-01-07" else none) "2024-01-05" "2024-01-07"
    2024 1 5 2024 1 7 rfl rfl (by decide) (by decide)).2) (by decide)


/-- C4: for a starting month `since` (day 1, midnight) at or before the current
month, `month_list` returns `(nowYear-sinceYear)*12 + (nowMonth-sinceMonth) + 1`
months, reverse-chronologically: element `i` is the localized first instant of
the month `i` months before the current month; element 0 is the first of the
current month and the last element is `since` itself. -/
theorem claim_C4_month_list (now_year now_month y0 m0 : Int) (tz : Tz)
    (hm0 : 1 ≤ m0) (hm0' : m0 ≤ 12) (hnm : 1 ≤ now_month) (hnm' : now_month ≤ 12)
    (hle : y0 * 12 + m0 ≤ now_year * 12 + now_month) :
    ((month_list now_year now_month (mkNaive y0 m0 1 0 0 0 0) tz).length : Int) =
      (now_year - y0) * 12 + (now_month - m0) + 1 ∧
    (month_list now_year now_month (mkNaive y0 m0 1 0 0 0 0) tz)[0]? =
      some (localize (mkNaive now_year now_month 1 0 0 0 0) tz) ∧
    (month_list now_year now_month (mkNaive y0 m0 1 0 0 0 0) tz)[
        (month_list now_year now_month (mkNaive y0 m0 1 0 0 0 0) tz).length - 1]? =
      some (localize (mkNaive y0 m0 1 0 0 0 0) tz) ∧
    (∀ i : Nat, i < (month_list now_year now_month (mkNaive y0 m0 1 0 0 0 0) tz).length →
      (month_list now_year now_month (mkNaive y0 m0 1 0 0 0 0) tz)[i]? =
        some (localize (firstOfMonthIdx (now_year * 12 + now_month - 1 - i)) tz)) := by
  obtain ⟨hlen, hget⟩ := month_list_spec now_year now_month y0 m0 tz hm0 hm0' hle
  have hpos : 0 < (month_list now_year now_month (mkNaive y0 m0 1 0 0 0 0) tz).length := by
    omega
  have hfirst : firstOfMonthIdx (now_year * 12 + now_month - 1) =
      mkNaive now_year now_month 1 0 0 0 0 := by
    rw [firstOfMonthIdx, mkNaive_midnight]
    rw [show (now_year * 12 + now_month - 1) / 12 = now_year from by omega]
    rw [show (now_year * 12 + now_month - 1) % 12 + 1 = now_month from by omega]
  have hlast : firstOfMonthIdx (y0 * 12 + m0 - 1) = mkNaive y0 m0 1 0 0 0 0 := by
    rw [firstOfMonthIdx, mkNaive_midnight]
    rw [show (y0 * 12 + m0 - 1) / 12 = y0 from by omega]
    rw [show (y0 * 12 + m0 - 1) % 12 + 1 = m0 from by omega]
  refine ⟨hlen, ?_, ?_, hget⟩
  · have h0 := hget 0 hpos
    rw [h0]
    rw [show now_year * 12 + now_month - 1 - (0 : Nat) = now_year * 12 + now_month - 1 from
      by norm_num]
    rw [hfirst]
  · have hL := hget ((month_list now_year now_month (mkNaive y0 m0 1 0 0 0 0) tz).length - 1)
      (by omega)
    rw [hL]
    rw [show now_year * 12 + now_month - 1 -
        (((month_list now_year now_month (mkNaive y0 m0 1 0 0 0 0) tz).length - 1 : Nat) : Int) =
        y0 * 12 + m0 - 1 from by omega]
    rw [hlast]

/-- C4 witness: for start 2013-11 and current month 2024-03, the list has 125
entries, starting at 2024-03-01 and ending at 2013-11-01. -/
theorem claim_C4_witness :
    ((month_list 2024 3 (mkNaive 2013 11 1 0 0 0 0) tzUTC).length : Int) = 125 ∧
    (month_list 2024 3 (mkNaive 2013 11 1 0 0 0 0) tzUTC)[0]? =
      some (localize (mkNaive 2024 3 1 0 0 0 0) tzUTC) ∧
    (month_list 2024 3 (mkNaive 2013 11 1 0 0 0 0) tzUTC)[
        (month_list 2024 3 (mkNaive 2013 11 1 0 0 0 0) tzUTC).length - 1]? =
      some (localize (mkNaive 2013 11 1 0 0 0 0) tzUTC) := by
  have h := claim_C4_month_list 2024 3 2013 11 tzUTC (by norm_num) (by norm_num)
    (by norm_num) (by norm_num) (by norm_num)
  refine ⟨?_, h.2.1, h.2.2.1⟩
  rw [h.1]
  norm_num

end NEMO
